import Mathlib

/-!
Verification of the WhisperLiveKit concurrency / resource-management core.

Shallow embedding of the Python sources under `whisperlivekit/`:
`performance/websocket_compression.py`, `performance/memory.py`,
`performance/connection.py`, `performance/async_tasks.py` and
`adaptive_buffer.py`.  Machine bytes are modelled as natural numbers,
floating-point quantities as rationals, wall-clock time as an explicit
rational parameter, and the external collaborators (JSON serialization,
zlib, the pluggable corrector) as function parameters.  Locks are erased:
the embedding is sequential, one call at a time, which matches the
single-short-critical-section locking discipline of the source.
-/

namespace Whisper

/-! ## Wire compression (`performance/websocket_compression.py`) -/

namespace Wire

/-- Byte strings are lists of naturals (each byte is `< 256` where the
source packs actual bytes). -/
abbrev Bytes := List Nat

/-- Embeds `MessageType` from `websocket_compression.py`. -/
inductive MessageType where
  | TRANSCRIPTION_RESULT
  | AUDIO_DATA
  | STATUS_UPDATE
  | ERROR_MESSAGE
  | HEARTBEAT
  | BATCH_UPDATE
  deriving DecidableEq, Repr

/-- Numeric value of each `MessageType` enum member. -/
def MessageType.value : MessageType → Nat
  | .TRANSCRIPTION_RESULT => 1
  | .AUDIO_DATA => 2
  | .STATUS_UPDATE => 3
  | .ERROR_MESSAGE => 4
  | .HEARTBEAT => 5
  | .BATCH_UPDATE => 6

/-- Embeds `MessageType(msg_type_value)` with the `except ValueError`
fallback of `_parse_packet`: unknown values map to `TRANSCRIPTION_RESULT`. -/
def MessageType.ofValue : Nat → MessageType
  | 1 => .TRANSCRIPTION_RESULT
  | 2 => .AUDIO_DATA
  | 3 => .STATUS_UPDATE
  | 4 => .ERROR_MESSAGE
  | 5 => .HEARTBEAT
  | 6 => .BATCH_UPDATE
  | _ => .TRANSCRIPTION_RESULT

/-- Embeds `CompressionLevel` from `websocket_compression.py`. -/
inductive CompressionLevel where
  | NONE
  | FAST
  | BALANCED
  | BEST
  deriving DecidableEq, Repr

/-- External collaborators of `AdaptiveCompressor`: JSON
serialize/deserialize (`json.dumps` / `json.loads`, compact separators)
and zlib compress/decompress, abstracted as function parameters.  `Msg`
is the type of message dictionaries. -/
structure Codecs (Msg : Type) where
  ser : Msg → Bytes
  deser : Bytes → Option Msg
  zcomp : Bytes → Bytes
  zdecomp : Bytes → Option Bytes

/-- Configuration and per-type level table of `AdaptiveCompressor`.
`compression_threshold_ratio` is a rational standing for the Python float. -/
structure CompressorState where
  min_compress_size : Nat
  compression_threshold_ratio : ℚ
  levels : MessageType → CompressionLevel

/-- Default `AdaptiveCompressor.__init__` level table. -/
def defaultLevels : MessageType → CompressionLevel
  | .TRANSCRIPTION_RESULT => .BALANCED
  | .AUDIO_DATA => .FAST
  | .STATUS_UPDATE => .FAST
  | .ERROR_MESSAGE => .NONE
  | .HEARTBEAT => .NONE
  | .BATCH_UPDATE => .BEST

/-- Default-constructed `AdaptiveCompressor` configuration. -/
def defaultCompressor : CompressorState :=
  { min_compress_size := 100
    compression_threshold_ratio := 8 / 10
    levels := defaultLevels }

/-- Big-endian 4-byte encoding of a length, as `struct.pack` with format
character I produces for an in-range value. -/
def be32 (n : Nat) : Bytes :=
  [n / 2 ^ 24 % 256, n / 2 ^ 16 % 256, n / 2 ^ 8 % 256, n % 256]

/-- Embeds `AdaptiveCompressor._create_packet`: 1 type byte, 1 flag byte
(bit 0 = compressed), 4-byte big-endian length, then the data.  Returns
`none` when `struct.pack` would raise because the length does not fit in
an unsigned 32-bit field. -/
def create_packet (t : MessageType) (data : Bytes) (compressed : Bool) :
    Option Bytes :=
  if data.length < 2 ^ 32 then
    some ([t.value, if compressed then 1 else 0] ++ be32 data.length ++ data)
  else
    none

/-- Embeds `AdaptiveCompressor.compress_message` for a single call
(statistics counters and the adaptive level adjustment, which only affect
later calls, are not modelled).  Returns `none` when the Python call would
raise out of the final fallback path.  The `n = 0` branch models the
`ZeroDivisionError` of `compressed_size / original_size` being caught and
falling back to an uncompressed packet. -/
def compress_message {Msg : Type} (st : CompressorState) (c : Codecs Msg)
    (message : Msg) (message_type : MessageType) : Option Bytes :=
  let original_bytes := c.ser message
  let n := original_bytes.length
  if n < st.min_compress_size then
    create_packet .TRANSCRIPTION_RESULT original_bytes false
  else
    let level := st.levels message_type
    if level = .NONE then
      create_packet message_type original_bytes false
    else
      let compressed_data := c.zcomp original_bytes
      if n = 0 then
        create_packet message_type original_bytes false
      else if (compressed_data.length : ℚ) / (n : ℚ) >
          st.compression_threshold_ratio then
        create_packet message_type original_bytes false
      else
        match create_packet message_type compressed_data true with
        | some packet => some packet
        | none => create_packet message_type original_bytes false

/-- Embeds `AdaptiveCompressor._parse_packet`.  Returns `none` where the
source raises `ValueError`. -/
def parse_packet (packet : Bytes) : Option (MessageType × Bool × Bytes) :=
  if packet.length < 6 then none
  else
    let msg_type_value := packet.getD 0 0
    let flags := packet.getD 1 0
    let data_length := packet.getD 2 0 * 2 ^ 24 + packet.getD 3 0 * 2 ^ 16 +
      packet.getD 4 0 * 2 ^ 8 + packet.getD 5 0
    let message_type := MessageType.ofValue msg_type_value
    let is_compressed := flags % 2 = 1
    let data := (packet.drop 6).take data_length
    if data.length ≠ data_length then none
    else some (message_type, is_compressed, data)

/-- Embeds `AdaptiveCompressor.decompress_message`.  Returns `none` where
the source re-raises after logging. -/
def decompress_message {Msg : Type} (c : Codecs Msg) (packet : Bytes) :
    Option Msg :=
  match parse_packet packet with
  | none => none
  | some (_, is_compressed, data) =>
    if is_compressed then
      match c.zdecomp data with
      | none => none
      | some decompressed_data => c.deser decompressed_data
    else
      c.deser data

/-- Concrete codec instance over single-number messages, used to
instantiate the round-trip theorems: serialization is the singleton
byte list and compression is the identity. -/
def unitCodecs : Codecs Nat where
  ser := fun n => [n]
  deser := fun l =>
    match l with
    | [n] => some n
    | _ => none
  zcomp := id
  zdecomp := some

end Wire

/-! ## Circular audio buffer (`performance/memory.py`) -/

namespace Memory

/-- Logical state of a `CircularAudioBuffer`: the stored samples in read
order (the physical head/tail wrap layout carries no further
information), the current capacity and the construction-time cap.
Samples are rationals standing for the float32 values. -/
structure CircularAudioBuffer where
  contents : List ℚ
  capacity : Nat
  max_capacity : Nat
  deriving DecidableEq, Repr

/-- Embeds `CircularAudioBuffer.__init__` with the given
`initial_capacity` and `max_capacity`. -/
def CircularAudioBuffer.mk0 (initial_capacity max_capacity : Nat) :
    CircularAudioBuffer :=
  { contents := [], capacity := initial_capacity
    max_capacity := max_capacity }

/-- Current number of stored samples (`self._size`). -/
def CircularAudioBuffer.size (b : CircularAudioBuffer) : Nat :=
  b.contents.length

/-- Embeds the rounding in `_resize`:
`2 ** int(np.ceil(np.log2(new_capacity)))`, i.e. the least power of two
that is at least `n` (for `n ≥ 1`). -/
def nextPow2 (n : Nat) : Nat := 2 ^ Nat.clog 2 n

/-- Embeds `CircularAudioBuffer._resize` as executed at its only call
sites (`append` and `consume`), which hold the buffer's non-reentrant
`threading.Lock`.  The requested capacity is checked against
`max_capacity` *before* the power-of-two rounding; a rounded capacity
equal to the current one returns early.  Otherwise the source copies the
stored data out through `self.read(self._size)` whenever `_size > 0`,
and `read` re-acquires the lock the caller already holds — the call
blocks forever.  The outer `none` models that self-deadlock (the call
never returns); otherwise the carried boolean is the source's return
value, `false` leaving the buffer untouched. -/
def CircularAudioBuffer.resize (b : CircularAudioBuffer)
    (new_capacity : Nat) : Option (Bool × CircularAudioBuffer) :=
  if b.max_capacity < new_capacity then some (false, b)
  else
    let rounded := nextPow2 new_capacity
    if rounded = b.capacity then some (true, b)
    else if b.size = 0 then some (true, { b with capacity := rounded })
    else none

/-- Embeds `CircularAudioBuffer.append`.  When the required total size
exceeds the current capacity it calls `_resize` first: `none`
propagates the deadlock of a grow from a non-empty buffer, a `false`
from `_resize` makes `append` return `false` with the buffer untouched,
and on success the data lands after the existing samples. -/
def CircularAudioBuffer.append (b : CircularAudioBuffer)
    (data : List ℚ) : Option (Bool × CircularAudioBuffer) :=
  let data_size := data.length
  if b.capacity < b.size + data_size then
    match b.resize (b.size + data_size) with
    | none => none
    | some (false, b2) => some (false, b2)
    | some (true, b2) => some (true, { b2 with contents := b2.contents ++ data })
  else
    some (true, { b with contents := b.contents ++ data })

end Memory

/-! ## Adaptive token buffer (`adaptive_buffer.py`) -/

namespace Adaptive

/-- Modelled from the spec: `ASRToken` lives in
`whisperlivekit/timed_objects.py`, which is not part of the sources at
hand; the spec's data model gives `Token = {start, end: seconds; text:
string; confidence: [0,1]}` and `adaptive_buffer.py` reads the
confidence through the field `probability`, which can also be missing.
Dataclass equality compares all fields. -/
structure ASRToken where
  start : ℚ
  end_ : ℚ
  text : String
  probability : Option ℚ
  deriving DecidableEq, Repr

/-- Embeds the `CorrectionResult` dataclass.  The `corrections`
descriptor list keeps the (original, corrected, context) triple of the
single dictionary the source builds. -/
structure CorrectionResult where
  original_text : String
  corrected_text : String
  confidence : ℚ
  corrections : List (String × String × String)
  timestamp : ℚ
  deriving DecidableEq, Repr

/-- The three per-session buffers of `AdaptiveBuffer`. -/
structure AdaptiveBufferState where
  instant_buffer : List ASRToken
  context_buffer : List ASRToken
  correction_queue : List ASRToken
  deriving DecidableEq, Repr

/-- Freshly constructed `AdaptiveBuffer` buffers. -/
def AdaptiveBufferState.empty : AdaptiveBufferState := ⟨[], [], []⟩

/-- Python tail slice `l[-k:]` on lists.  For `k = 0` the slice is
`l[-0:] = l[0:]`, the whole list — not the empty list. -/
def pyTailSlice {α : Type} (k : Nat) (l : List α) : List α :=
  if k = 0 then l else l.drop (l.length - k)

/-- Embeds `AdaptiveBuffer.add_tokens`: extends the three buffers and
trims `context_buffer` to the last `max_context_tokens` entries by the
Python slice above.  Returns the tokens for instant display together
with the new state. -/
def add_tokens (max_context_tokens : Nat) (st : AdaptiveBufferState)
    (tokens : List ASRToken) : List ASRToken × AdaptiveBufferState :=
  if tokens = [] then ([], st)
  else
    let context := st.context_buffer ++ tokens
    let context2 :=
      if max_context_tokens < context.length then
        pyTailSlice max_context_tokens context
      else context
    (tokens,
      { instant_buffer := st.instant_buffer ++ tokens
        context_buffer := context2
        correction_queue := st.correction_queue ++ tokens })

/-- Folds a whole sequence of `add_tokens` calls over a state. -/
def run_add_tokens (max_context_tokens : Nat)
    (st : AdaptiveBufferState) (calls : List (List ASRToken)) :
    AdaptiveBufferState :=
  calls.foldl (fun s ts => (add_tokens max_context_tokens s ts).2) st

/-- Embeds the skip test of `_correct_tokens`:
`if token.probability and token.probability < self.confidence_threshold`.
Python truthiness makes both a missing probability and a probability of
exactly `0.0` fail the first conjunct. -/
def skipToken (confidence_threshold : ℚ) (t : ASRToken) : Bool :=
  match t.probability with
  | none => false
  | some v => decide (v ≠ 0) && decide (v < confidence_threshold)

/-- Embeds `AdaptiveBuffer._get_context_for_token`: locates the first
token structurally equal to the given one, then joins the texts of the
slice `context_buffer[max(0, i-10) : min(len, i+10)]` with spaces. -/
def get_context_for_token (context_buffer : List ASRToken)
    (token : ASRToken) : String :=
  match context_buffer.findIdx? (· = token) with
  | none => ""
  | some token_index =>
    let context_start := token_index - 10
    let context_end := min context_buffer.length (token_index + 10)
    let context_tokens :=
      (context_buffer.drop context_start).take (context_end - context_start)
    String.intercalate " " (context_tokens.map ASRToken.text)

/-- Embeds `AdaptiveBuffer._correct_tokens` over the drained queue,
with the corrector (`_correct_token_with_context`, declared pluggable by
the spec) as a parameter taking the token's text and its context.
`now` stands for `time.time()`. -/
def correct_tokens (confidence_threshold : ℚ)
    (corrector : String → String → String)
    (context_buffer : List ASRToken) (now : ℚ) :
    List ASRToken → List CorrectionResult
  | [] => []
  | token :: rest =>
    if skipToken confidence_threshold token then
      correct_tokens confidence_threshold corrector context_buffer now rest
    else
      let context := get_context_for_token context_buffer token
      let corrected_text := corrector token.text context
      if corrected_text ≠ token.text then
        { original_text := token.text
          corrected_text := corrected_text
          confidence := token.probability.getD 0
          corrections := [(token.text, corrected_text, context)]
          timestamp := now } ::
          correct_tokens confidence_threshold corrector context_buffer now rest
      else
        correct_tokens confidence_threshold corrector context_buffer now rest

/-- Correction-candidate predicate in the words of the amended claim: a
drained token is passed to the corrector exactly when its probability is
missing, exactly zero, or at least `confidence_threshold`. -/
def correctionCandidate (confidence_threshold : ℚ) (t : ASRToken) : Bool :=
  match t.probability with
  | none => true
  | some v => decide (v = 0) || decide (confidence_threshold ≤ v)

/-- Restatement of the correction pass in the amended claim's words:
filter the drained tokens to the correction candidates, give each its
context window from `context_buffer`, call the corrector, and keep a
`CorrectionResult` exactly when the text changed. -/
def correct_tokens_spec (confidence_threshold : ℚ)
    (corrector : String → String → String)
    (context_buffer : List ASRToken) (now : ℚ)
    (tokens : List ASRToken) : List CorrectionResult :=
  (tokens.filter (correctionCandidate confidence_threshold)).filterMap
    (fun token =>
      let context := get_context_for_token context_buffer token
      let corrected_text := corrector token.text context
      if corrected_text ≠ token.text then
        some { original_text := token.text
               corrected_text := corrected_text
               confidence := token.probability.getD 0
               corrections := [(token.text, corrected_text, context)]
               timestamp := now }
      else none)

end Adaptive

/-! ## Connection pool and rate limiter (`performance/connection.py`) -/

namespace Conn

/-- Embeds `ConnectionState`. -/
inductive ConnectionState where
  | CONNECTING
  | CONNECTED
  | PROCESSING
  | IDLE
  | DISCONNECTING
  | DISCONNECTED
  | ERROR
  deriving DecidableEq, Repr

/-- Embeds the `ConnectionInfo` dataclass. -/
structure ConnectionInfo where
  connection_id : String
  state : ConnectionState
  created_at : ℚ
  last_activity : ℚ
  bytes_processed : Nat
  messages_processed : Nat
  error_count : Nat
  client_ip : Option String
  user_agent : Option String
  deriving DecidableEq, Repr

/-- Dictionary update on an association list: replace the value at an
existing key, otherwise append at the end (Python dict insertion
order). -/
def setAssoc {β : Type} (l : List (String × β)) (k : String) (v : β) :
    List (String × β) :=
  if l.any (fun p => p.1 = k) then
    l.map (fun p => if p.1 = k then (k, v) else p)
  else l ++ [(k, v)]

/-- Dictionary lookup on an association list. -/
def getAssoc {β : Type} (l : List (String × β)) (k : String) : Option β :=
  (l.find? (fun p => p.1 = k)).map (fun p => p.2)

/-- State of a `ConnectionPool`: configuration, the two dictionaries and
the statistics counters touched by `add_connection`. -/
structure ConnectionPool where
  max_connections : Nat
  max_concurrent_per_connection : Nat
  connections : List (String × ConnectionInfo)
  connection_loads : List (String × Nat)
  total_connections : Nat
  peak_connections : Nat
  rejected_connections : Nat
  deriving DecidableEq, Repr

/-- Embeds `ConnectionPool.add_connection`.  `connection_id` is the
identifier in use: the caller's argument, or the fresh `uuid4` string
the source generates when that argument is `None`.  `now` stands for
`time.time()`.  Returns the connection id on admission, `none` on
rejection. -/
def add_connection (pool : ConnectionPool) (connection_id : String)
    (client_ip user_agent : Option String) (now : ℚ) :
    Option String × ConnectionPool :=
  if pool.max_connections ≤ pool.connections.length then
    (none, { pool with
      rejected_connections := pool.rejected_connections + 1 })
  else
    let conn_info : ConnectionInfo :=
      { connection_id := connection_id
        state := .CONNECTED
        created_at := now
        last_activity := now
        bytes_processed := 0
        messages_processed := 0
        error_count := 0
        client_ip := client_ip
        user_agent := user_agent }
    let connections2 := setAssoc pool.connections connection_id conn_info
    (some connection_id,
      { pool with
        connections := connections2
        connection_loads := setAssoc pool.connection_loads connection_id 0
        total_connections := pool.total_connections + 1
        peak_connections := max pool.peak_connections connections2.length })

/-- Embeds a `RateLimiter` token bucket (`tokens`, `last_refill`), with
floats as rationals. -/
structure Bucket where
  tokens : ℚ
  last_refill : ℚ
  deriving DecidableEq, Repr

/-- Configuration of `RateLimiter`. -/
structure RateLimiter where
  requests_per_second : ℚ
  burst_size : Nat
  deriving DecidableEq, Repr

/-- Bucket produced by the `defaultdict` factory for a key not seen
before: full burst allowance, `last_refill` at creation time. -/
def freshBucket (rl : RateLimiter) (now : ℚ) : Bucket :=
  ⟨(rl.burst_size : ℚ), now⟩

/-- Embeds `RateLimiter.is_allowed` on one bucket: refill by elapsed
time times the rate, cap at the burst size, then consume one token if at
least one is available. -/
def is_allowed (rl : RateLimiter) (b : Bucket) (now : ℚ) :
    Bool × Bucket :=
  let elapsed := now - b.last_refill
  let tokens2 := min ((rl.burst_size : ℚ)) (b.tokens + elapsed * rl.requests_per_second)
  if 1 ≤ tokens2 then (true, ⟨tokens2 - 1, now⟩)
  else (false, ⟨tokens2, now⟩)

/-- Runs a sequence of `is_allowed` checks at the given instants,
threading the bucket, and collects the answers. -/
def run_allowed (rl : RateLimiter) : Bucket → List ℚ → List Bool
  | _, [] => []
  | b, t :: ts =>
    let r := is_allowed rl b t
    r.1 :: run_allowed rl r.2 ts

/-- Embeds the `PriorityQueue` of `connection.py`: one deque per
priority level (index 0 = highest), a total-size cap and the derived
sizes.  `queues.length` equals `priority_levels` for every queue built
by `__init__`. -/
structure PriorityQueue (α : Type) where
  max_size : Nat
  priority_levels : Nat
  queues : List (List α)

/-- Total number of queued items (`self._total_size`). -/
def PriorityQueue.total_size {α : Type} (q : PriorityQueue α) : Nat :=
  (q.queues.map List.length).sum

/-- Embeds `PriorityQueue.put` for a caller that does not wait (the
`timeout` elapses, or no consumer ever frees space): a priority outside
`[0, priority_levels)` is clamped to `priority_levels - 1`, then the
item is appended to that level's deque unless the queue is at
`max_size`, in which case the item is dropped and `False` returned. -/
def PriorityQueue.put {α : Type} (q : PriorityQueue α) (item : α)
    (priority : ℤ) : Bool × PriorityQueue α :=
  let p : Nat :=
    if priority < 0 ∨ (q.priority_levels : ℤ) ≤ priority then
      q.priority_levels - 1
    else priority.toNat
  if q.max_size ≤ q.total_size then (false, q)
  else
    (true, { q with queues := q.queues.set p (q.queues.getD p [] ++ [item]) })

end Conn

/-! ## Async task pool (`performance/async_tasks.py`) -/

namespace Tasks

/-- Embeds `TaskPriority`. -/
inductive TaskPriority where
  | CRITICAL
  | HIGH
  | NORMAL
  | LOW
  deriving DecidableEq, Repr

/-- Embeds the `TaskInfo` dataclass at submission time (`started_at`,
`completed_at`, `error` and `result` are still unset). -/
structure TaskInfo where
  task_id : String
  priority : TaskPriority
  created_at : ℚ
  deriving DecidableEq, Repr

/-- State of an `AsyncTaskPool` as touched by `submit`: the four pending
deques keyed by priority, the id counter and the submission counter. -/
structure AsyncTaskPool where
  max_concurrent_tasks : Nat
  max_pending_tasks : Nat
  pending_critical : List TaskInfo
  pending_high : List TaskInfo
  pending_normal : List TaskInfo
  pending_low : List TaskInfo
  task_counter : Nat
  total_submitted : Nat
  deriving DecidableEq, Repr

/-- The pending deque of one priority level. -/
def AsyncTaskPool.pendingAt (p : AsyncTaskPool) :
    TaskPriority → List TaskInfo
  | .CRITICAL => p.pending_critical
  | .HIGH => p.pending_high
  | .NORMAL => p.pending_normal
  | .LOW => p.pending_low

/-- Total number of pending items across all priority queues
(`sum(len(q) for q in self._pending_tasks.values())`). -/
def AsyncTaskPool.total_pending (p : AsyncTaskPool) : Nat :=
  p.pending_critical.length + p.pending_high.length +
    p.pending_normal.length + p.pending_low.length

/-- Appends a task to the deque of its priority. -/
def AsyncTaskPool.enqueue (p : AsyncTaskPool) (priority : TaskPriority)
    (info : TaskInfo) : AsyncTaskPool :=
  match priority with
  | .CRITICAL => { p with pending_critical := p.pending_critical ++ [info] }
  | .HIGH => { p with pending_high := p.pending_high ++ [info] }
  | .NORMAL => { p with pending_normal := p.pending_normal ++ [info] }
  | .LOW => { p with pending_low := p.pending_low ++ [info] }

/-- Embeds `AsyncTaskPool.submit`.  A missing `task_id` draws a fresh
`task-N` from the counter (incremented before the capacity check, as in
the source).  Returns `none` exactly when the source raises
`asyncio.QueueFull`; the coroutine itself is opaque and not modelled. -/
def submit (p : AsyncTaskPool) (task_id : Option String)
    (priority : TaskPriority) (now : ℚ) :
    Option String × AsyncTaskPool :=
  let counter2 := match task_id with
    | none => p.task_counter + 1
    | some _ => p.task_counter
  let tid := match task_id with
    | none => "task-" ++ toString (p.task_counter + 1)
    | some t => t
  let info : TaskInfo := ⟨tid, priority, now⟩
  let p2 := { p with task_counter := counter2 }
  if p.max_pending_tasks ≤ p.total_pending then
    (none, p2)
  else
    (some tid,
      { p2.enqueue priority info with
        total_submitted := p.total_submitted + 1 })

end Tasks

/-! ## Message batcher (`performance/websocket_compression.py`) -/

namespace Batch

/-- Configuration of `MessageBatcher`. -/
structure MessageBatcher where
  max_batch_size : Nat
  max_batch_bytes : Nat

/-- Mutable state of a `MessageBatcher`: the pending messages and their
accumulated estimated size. -/
structure BatchState (Msg : Type) where
  batch_queue : List Msg
  batch_size_bytes : Nat

/-- Fresh `MessageBatcher` state. -/
def BatchState.empty {Msg : Type} : BatchState Msg := ⟨[], 0⟩

/-- Batch envelope built by `_flush_batch` (`type` is the constant
string batch). -/
structure BatchEnvelope (Msg : Type) where
  messages : List Msg
  count : Nat
  timestamp : ℚ

/-- Embeds `MessageBatcher._flush_batch`: on a non-empty queue, emits
one envelope holding the queued messages in order and clears the state;
on an empty queue does nothing. -/
def flush_batch {Msg : Type} (st : BatchState Msg) (now : ℚ) :
    BatchState Msg × List (BatchEnvelope Msg) :=
  if st.batch_queue.isEmpty then (st, [])
  else (⟨[], 0⟩, [⟨st.batch_queue, st.batch_queue.length, now⟩])

/-- Embeds `MessageBatcher.add_message` with the timer left unfired (the
flush-on-timeout path is real time and out of this model): if adding the
message would pass the count or byte limit, the current batch is flushed
first, then the message is appended.  `msize` stands for
`len(json.dumps(message))`.  Returns the new state and the envelopes
emitted during the call. -/
def add_message {Msg : Type} (cfg : MessageBatcher) (msize : Msg → Nat)
    (st : BatchState Msg) (message : Msg) (now : ℚ) :
    BatchState Msg × List (BatchEnvelope Msg) :=
  let msg_size := msize message
  let flushed :=
    if cfg.max_batch_size ≤ st.batch_queue.length ∨
        cfg.max_batch_bytes < st.batch_size_bytes + msg_size then
      flush_batch st now
    else (st, [])
  (⟨flushed.1.batch_queue ++ [message],
    flushed.1.batch_size_bytes + msg_size⟩, flushed.2)

/-- Adds a sequence of messages at one instant, collecting every emitted
envelope in order. -/
def add_all {Msg : Type} (cfg : MessageBatcher) (msize : Msg → Nat)
    (now : ℚ) : BatchState Msg → List Msg →
    BatchState Msg × List (BatchEnvelope Msg)
  | st, [] => (st, [])
  | st, m :: ms =>
    let r1 := add_message cfg msize st m now
    let r2 := add_all cfg msize now r1.1 ms
    (r2.1, r1.2 ++ r2.2)

end Batch

/-! ## Theorems -/

namespace Wire

/-- Recombining the four big-endian digits of an in-range length gives
the length back. -/
lemma be32_decode {n : Nat} (h : n < 2 ^ 32) :
    n / 2 ^ 24 % 256 * 2 ^ 24 + n / 2 ^ 16 % 256 * 2 ^ 16 +
      n / 2 ^ 8 % 256 * 2 ^ 8 + n % 256 = n := by
  omega

/-- Parsing a well-formed packet recovers its type byte, compressed flag
and payload. -/
lemma parse_packet_mk (t : MessageType) (data : Bytes) (compressed : Bool)
    (h : data.length < 2 ^ 32) :
    parse_packet ([t.value, if compressed then 1 else 0] ++ be32 data.length ++ data) =
      some (MessageType.ofValue t.value, compressed, data) := by
  have hlen : ¬ ([t.value, if compressed then 1 else 0] ++
      be32 data.length ++ data).length < 6 := by
    simp [be32]
  rw [parse_packet, if_neg hlen]
  simp only [be32, List.cons_append, List.nil_append, List.getD_cons_zero,
    List.getD_cons_succ, List.drop_succ_cons, List.drop_zero]
  rw [be32_decode h]
  simp [List.take_length]
  cases compressed <;> simp

/-- `create_packet` succeeds on in-range payloads and yields the header
followed by the data. -/
lemma create_packet_eq (t : MessageType) (data : Bytes) (compressed : Bool)
    (h : data.length < 2 ^ 32) :
    create_packet t data compressed =
      some ([t.value, if compressed then 1 else 0] ++ be32 data.length ++ data) := by
  rw [create_packet, if_pos h]

/-- Decoding an uncompressed packet deserializes its payload directly. -/
lemma decompress_mk_uncompressed {Msg : Type} (c : Codecs Msg) (t : MessageType)
    (data : Bytes) (h : data.length < 2 ^ 32) :
    decompress_message c ([t.value, if false then 1 else 0] ++ be32 data.length ++ data) =
      c.deser data := by
  rw [decompress_message, parse_packet_mk t data false h]
  rfl

/-- Decoding a compressed packet inflates before deserializing. -/
lemma decompress_mk_compressed {Msg : Type} (c : Codecs Msg) (t : MessageType)
    (data : Bytes) (h : data.length < 2 ^ 32) :
    decompress_message c ([t.value, if true then 1 else 0] ++ be32 data.length ++ data) =
      match c.zdecomp data with
      | none => none
      | some d => c.deser d := by
  rw [decompress_message, parse_packet_mk t data true h]
  rfl

/-- C1: for every message dictionary and every message type, decoding
the packet produced by encoding round-trips: `decompress_message`
applied to the result of `compress_message message message_type` yields
the original message, whether or not the compressed branch was taken.
The hypotheses say that the external serializer and compressor invert
(as `json.loads` / `json.dumps` and `zlib` do) and that both encodings
fit the 32-bit length field. -/
theorem compress_decompress_roundtrip {Msg : Type} (st : CompressorState)
    (c : Codecs Msg) (message : Msg) (message_type : MessageType)
    (hser : c.deser (c.ser message) = some message)
    (hz : c.zdecomp (c.zcomp (c.ser message)) = some (c.ser message))
    (h1 : (c.ser message).length < 2 ^ 32)
    (h2 : (c.zcomp (c.ser message)).length < 2 ^ 32) :
    ∃ packet, compress_message st c message message_type = some packet ∧
      decompress_message c packet = some message := by
  simp only [compress_message]
  split_ifs with hmin hnone hzero hratio
  · exact ⟨_, create_packet_eq _ _ _ h1,
      by rw [decompress_mk_uncompressed _ _ _ h1, hser]⟩
  · exact ⟨_, create_packet_eq _ _ _ h1,
      by rw [decompress_mk_uncompressed _ _ _ h1, hser]⟩
  · exact ⟨_, create_packet_eq _ _ _ h1,
      by rw [decompress_mk_uncompressed _ _ _ h1, hser]⟩
  · exact ⟨_, create_packet_eq _ _ _ h1,
      by rw [decompress_mk_uncompressed _ _ _ h1, hser]⟩
  · rw [create_packet_eq _ _ _ h2]
    exact ⟨_, rfl, by rw [decompress_mk_compressed _ _ _ h2, hz]; exact hser⟩

/-- C1 witness: the round trip at a concrete compressor, codec, message
and type. -/
theorem compress_decompress_roundtrip_witness :
    ∃ packet,
      compress_message defaultCompressor unitCodecs 7 .TRANSCRIPTION_RESULT =
        some packet ∧
      decompress_message unitCodecs packet = some 7 :=
  compress_decompress_roundtrip defaultCompressor unitCodecs 7
    .TRANSCRIPTION_RESULT rfl rfl (by decide) (by decide)

/-- C9: a message whose serialized form is below `min_compress_size` is
sent uncompressed with the hard-coded `TRANSCRIPTION_RESULT` type code 1
in the first header byte, regardless of the `message_type` argument. -/
theorem small_message_type_byte {Msg : Type} (st : CompressorState)
    (c : Codecs Msg) (message : Msg) (message_type : MessageType)
    (packet : Bytes)
    (hmin : (c.ser message).length < st.min_compress_size)
    (hp : compress_message st c message message_type = some packet) :
    packet.head? = some 1 := by
  rw [compress_message] at hp
  rw [if_pos hmin, create_packet] at hp
  by_cases h32 : (c.ser message).length < 2 ^ 32
  · rw [if_pos h32] at hp
    cases hp
    rfl
  · rw [if_neg h32] at hp
    cases hp

/-- C9 witness: a concrete small message sent with `message_type =
AUDIO_DATA` still carries type byte 1. -/
theorem small_message_type_byte_witness :
    ([1, 0, 0, 0, 0, 1, 7] : Bytes).head? = some 1 :=
  small_message_type_byte defaultCompressor unitCodecs 7 .AUDIO_DATA
    [1, 0, 0, 0, 0, 1, 7] (by decide) (by decide)

end Wire

namespace Memory

/-- Concrete value of the ceiling base-2 logarithm at 5. -/
lemma clog_two_five : Nat.clog 2 5 = 3 := by
  rw [Nat.clog_of_two_le (by norm_num) (by norm_num)]
  norm_num
  rw [Nat.clog_of_two_le (by norm_num) (by norm_num)]
  norm_num
  rw [Nat.clog_of_two_le (by norm_num) (by norm_num)]
  norm_num

/-- `nextPow2` dominates its argument. -/
lemma le_nextPow2 (n : Nat) : n ≤ nextPow2 n :=
  Nat.le_pow_clog (by norm_num) n

/-- `nextPow2` is the least power of two at or above its argument. -/
lemma nextPow2_le_pow {n k : Nat} (h : n ≤ 2 ^ k) : nextPow2 n ≤ 2 ^ k :=
  Nat.pow_le_pow_right (by norm_num)
    ((Nat.le_pow_iff_clog_le (by norm_num)).mp h)

/-- `nextPow2` is monotone. -/
lemma nextPow2_mono {n m : Nat} (h : n ≤ m) : nextPow2 n ≤ nextPow2 m :=
  Nat.pow_le_pow_right (by norm_num) (Nat.clog_mono_right 2 h)

/-- C2 counterexample: on a fresh (empty) buffer with
`initial_capacity = 4` and `max_capacity = 5`, appending 5 samples needs
a grow to required size 5, which passes the `max_capacity` check, skips
the data copy (`_size = 0`, so the lock is not re-acquired and the call
returns), and is only then rounded up to the power of two 8 — strictly
above `max_capacity`.  This refutes the claim's clause that a grown
capacity never exceeds `max_capacity`. -/
theorem append_capacity_exceeds_max :
    (CircularAudioBuffer.mk0 4 5).append (List.replicate 5 0) =
      some (true, ⟨List.replicate 5 0, 8, 5⟩) ∧
    (CircularAudioBuffer.mk0 4 5).max_capacity < 8 := by
  have h8 : nextPow2 5 = 8 := by
    rw [nextPow2, clog_two_five]
    norm_num
  constructor <;>
    simp [CircularAudioBuffer.append, CircularAudioBuffer.resize,
      CircularAudioBuffer.mk0, CircularAudioBuffer.size, h8]

/-- C2 amended: `append` returns `false`, leaving contents, size and
capacity unchanged, exactly when the required total size exceeds both
the current capacity and `max_capacity`; with room in the current
capacity it appends without resizing; on a grow within the cap from an
*empty* buffer the new capacity is the least power of two at or above
the required size — bounded by the least power of two at or above
`max_capacity`, but possibly above `max_capacity` itself; and on a grow
within the cap from a *non-empty* buffer the call never returns, because
`_resize`'s data copy calls `read`, which re-acquires the non-reentrant
lock `append` already holds. -/
theorem append_amended (b : CircularAudioBuffer) (data : List ℚ) :
    (b.capacity < b.size + data.length → b.max_capacity < b.size + data.length →
      b.append data = some (false, b)) ∧
    (b.size + data.length ≤ b.capacity →
      b.append data = some (true, { b with contents := b.contents ++ data })) ∧
    (b.capacity < b.size + data.length → b.size + data.length ≤ b.max_capacity →
      b.size = 0 →
      b.append data = some (true, { b with
        contents := b.contents ++ data
        capacity := nextPow2 (b.size + data.length) }) ∧
      b.size + data.length ≤ nextPow2 (b.size + data.length) ∧
      (∀ k, b.size + data.length ≤ 2 ^ k → nextPow2 (b.size + data.length) ≤ 2 ^ k) ∧
      nextPow2 (b.size + data.length) ≤ nextPow2 b.max_capacity) ∧
    (b.capacity < b.size + data.length → b.size + data.length ≤ b.max_capacity →
      0 < b.size → b.append data = none) := by
  refine ⟨fun hcap hmax => ?_, fun hroom => ?_, fun hcap hmax hsz => ?_,
    fun hcap hmax hsz => ?_⟩
  · rw [CircularAudioBuffer.append]
    simp only [if_pos hcap, CircularAudioBuffer.resize, if_pos hmax]
  · rw [CircularAudioBuffer.append]
    simp only [if_neg (not_lt.mpr hroom)]
  · have hne : nextPow2 (b.size + data.length) ≠ b.capacity :=
      Nat.ne_of_gt (lt_of_lt_of_le hcap (le_nextPow2 _))
    refine ⟨?_, le_nextPow2 _, fun k hk => nextPow2_le_pow hk, nextPow2_mono hmax⟩
    rw [CircularAudioBuffer.append]
    simp only [if_pos hcap, CircularAudioBuffer.resize,
      if_neg (not_lt.mpr hmax), if_neg hne, if_pos hsz]
  · have hne : nextPow2 (b.size + data.length) ≠ b.capacity :=
      Nat.ne_of_gt (lt_of_lt_of_le hcap (le_nextPow2 _))
    rw [CircularAudioBuffer.append]
    simp only [if_pos hcap, CircularAudioBuffer.resize,
      if_neg (not_lt.mpr hmax), if_neg hne,
      if_neg (Nat.pos_iff_ne_zero.mp hsz)]

/-- C2 amended witness: a grow from an empty buffer of capacity 4 with
`max_capacity = 10` and required size 5 succeeds on capacity
`nextPow2 5`, while the same grow from a buffer already holding one
sample never returns. -/
theorem append_amended_witness :
    (CircularAudioBuffer.mk0 4 10).append (List.replicate 5 0) =
      some (true, ⟨List.replicate 5 0, nextPow2 5, 10⟩) ∧
    (⟨[1], 4, 10⟩ : CircularAudioBuffer).append (List.replicate 5 0) = none :=
  ⟨((append_amended (CircularAudioBuffer.mk0 4 10) (List.replicate 5 0)).2.2.1
      (by decide) (by decide) rfl).1,
   (append_amended ⟨[1], 4, 10⟩ (List.replicate 5 0)).2.2.2
      (by decide) (by decide) (by decide)⟩

end Memory

namespace Adaptive

/-- A drained token is a correction candidate exactly when the source's
skip test fails. -/
lemma correctionCandidate_eq_not_skipToken (th : ℚ) (t : ASRToken) :
    correctionCandidate th t = !skipToken th t := by
  rcases t with ⟨s, e, tx, p⟩
  cases p with
  | none => rfl
  | some v =>
    simp only [correctionCandidate, skipToken]
    by_cases h0 : v = 0
    · simp [h0]
    · by_cases hlt : v < th
      · simp [h0, hlt, not_le.mpr hlt]
      · simp [h0, hlt, not_lt.mp hlt]

/-- C3 amended: a correction pass equals the claim-style pipeline —
filter the drained tokens to those whose probability is missing, zero,
or at least `confidence_threshold`, attach each candidate's context
window `context_buffer[max(0, i-10) : min(len, i+10)]` (10 tokens before
and up to 9 after its first structurally equal occurrence), call the
corrector and keep a result exactly when the text changed — and every
produced `CorrectionResult` has `corrected_text` different from its
`original_text`. -/
theorem correct_tokens_amended (th : ℚ) (corrector : String → String → String)
    (buf : List ASRToken) (now : ℚ) (tokens : List ASRToken) :
    correct_tokens th corrector buf now tokens =
      correct_tokens_spec th corrector buf now tokens ∧
    ∀ r ∈ correct_tokens th corrector buf now tokens,
      r.corrected_text ≠ r.original_text := by
  constructor
  · induction tokens with
    | nil => rfl
    | cons t ts ih =>
      by_cases hs : skipToken th t
      · simpa [correct_tokens, correct_tokens_spec, List.filter_cons,
          correctionCandidate_eq_not_skipToken, hs] using ih
      · by_cases hne : corrector t.text (get_context_for_token buf t) ≠ t.text
        · simpa [correct_tokens, correct_tokens_spec, List.filter_cons,
            List.filterMap_cons, correctionCandidate_eq_not_skipToken, hs,
            hne] using ih
        · simpa [correct_tokens, correct_tokens_spec, List.filter_cons,
            List.filterMap_cons, correctionCandidate_eq_not_skipToken, hs,
            hne] using ih
  · induction tokens with
    | nil => intro r hr; simp [correct_tokens] at hr
    | cons t ts ih =>
      intro r hr
      by_cases hs : skipToken th t
      · rw [correct_tokens, if_pos hs] at hr
        exact ih r hr
      · by_cases hne : corrector t.text (get_context_for_token buf t) ≠ t.text
        · rw [correct_tokens, if_neg hs] at hr
          simp only [if_pos hne] at hr
          rcases List.mem_cons.mp hr with h | h
          · subst h
            exact hne
          · exact ih r h
        · rw [correct_tokens, if_neg hs] at hr
          simp only [if_neg hne] at hr
          exact ih r hr

/-- C3 counterexample: a token with probability exactly `0.0` — below
the threshold `1/2` — is *not* skipped (Python `0.0` is falsy in
`token.probability and ...`) and yields a `CorrectionResult`, refuting
the claim that exactly the tokens with confidence at or above the
threshold are candidates. -/
theorem correct_tokens_low_confidence_counterexample :
    correct_tokens (1/2) (fun t _ => t ++ "!") [⟨0, 1, "a", some 0⟩] 0
        [⟨0, 1, "a", some 0⟩] =
      [⟨"a", "a!", 0, [("a", "a!", "a")], 0⟩] ∧ (0 : ℚ) < 1 / 2 :=
  ⟨by decide, by norm_num⟩

/-- C3 witness: the amended pass at a concrete buffer and corrector,
with the produced correction differing from its original text. -/
theorem correct_tokens_amended_witness :
    correct_tokens 0 (fun t _ => t ++ "!") [⟨0, 1, "b", some 1⟩] 0
        [⟨0, 1, "b", some 1⟩] =
      correct_tokens_spec 0 (fun t _ => t ++ "!") [⟨0, 1, "b", some 1⟩] 0
        [⟨0, 1, "b", some 1⟩] ∧
    (⟨"b", "b!", 1, [("b", "b!", "b")], 0⟩ : CorrectionResult).corrected_text ≠ "b" :=
  ⟨(correct_tokens_amended 0 (fun t _ => t ++ "!") [⟨0, 1, "b", some 1⟩] 0
      [⟨0, 1, "b", some 1⟩]).1,
   (correct_tokens_amended 0 (fun t _ => t ++ "!") [⟨0, 1, "b", some 1⟩] 0
      [⟨0, 1, "b", some 1⟩]).2 _ (by decide)⟩

/-- C6 counterexample: with `max_context_tokens = 0` the Python trim
`context_buffer[-0:]` keeps the whole buffer, so one `add_tokens` call
already leaves more than `max_context_tokens` tokens in
`context_buffer`. -/
theorem add_tokens_unbounded_counterexample :
    (add_tokens 0 AdaptiveBufferState.empty
      [⟨0, 0, "a", none⟩]).2.context_buffer.length = 1 := by
  decide

/-- C6 amended: for `max_context_tokens ≥ 1`, after every `add_tokens`
call the context buffer is exactly the most recent `max_context_tokens`
tokens of the concatenated stream (the oldest are evicted), hence its
length stays bounded across every sequence of calls. -/
theorem context_bound_amended (max : Nat) (hmax : 1 ≤ max) :
    (∀ st ts, st.context_buffer.length ≤ max →
      (add_tokens max st ts).2.context_buffer =
        (st.context_buffer ++ ts).drop ((st.context_buffer ++ ts).length - max) ∧
      (add_tokens max st ts).2.context_buffer.length ≤ max) ∧
    (∀ st calls, st.context_buffer.length ≤ max →
      (run_add_tokens max st calls).context_buffer.length ≤ max) := by
  have step : ∀ st ts, st.context_buffer.length ≤ max →
      (add_tokens max st ts).2.context_buffer =
        (st.context_buffer ++ ts).drop ((st.context_buffer ++ ts).length - max) ∧
      (add_tokens max st ts).2.context_buffer.length ≤ max := by
    intro st ts h
    by_cases hts : ts = []
    · subst hts
      rw [add_tokens]
      simp [Nat.sub_eq_zero_of_le h]
      exact h
    · rw [add_tokens, if_neg hts]
      dsimp only
      by_cases hlen : max < (st.context_buffer ++ ts).length
      · rw [if_pos hlen, pyTailSlice, if_neg (by omega)]
        refine ⟨rfl, ?_⟩
        rw [List.length_drop]
        omega
      · rw [if_neg hlen]
        constructor
        · rw [Nat.sub_eq_zero_of_le (not_lt.mp hlen), List.drop_zero]
        · exact not_lt.mp hlen
  refine ⟨step, ?_⟩
  intro st calls
  induction calls generalizing st with
  | nil => intro h; exact h
  | cons ts rest ih =>
    intro h
    rw [run_add_tokens, List.foldl_cons]
    exact ih _ ((step st ts h).2)

/-- C6 witness: three successive single-token calls against a bound of
2 leave at most 2 context tokens. -/
theorem context_bound_amended_witness :
    (run_add_tokens 2 AdaptiveBufferState.empty
      [[⟨0, 0, "a", none⟩], [⟨1, 2, "b", none⟩],
        [⟨2, 3, "c", none⟩]]).context_buffer.length ≤ 2 :=
  (context_bound_amended 2 (by norm_num)).2 AdaptiveBufferState.empty
    [[⟨0, 0, "a", none⟩], [⟨1, 2, "b", none⟩], [⟨2, 3, "c", none⟩]]
    (by decide)

end Adaptive

namespace Conn

/-- Looking up a key in the mapped association list after an in-place
dictionary update finds the fresh value. -/
lemma find_in_mapped {β : Type} (k : String) (v : β) :
    ∀ ps : List (String × β), ps.any (fun p => p.1 = k) = true →
      List.find? (fun p => p.1 = k)
        (ps.map (fun p => if p.1 = k then (k, v) else p)) = some (k, v) := by
  intro ps
  induction ps with
  | nil => simp
  | cons p rest ih =>
    intro ha
    by_cases hp : p.1 = k
    · simp [hp]
    · have ha2 : rest.any (fun q => q.1 = k) = true := by
        simpa [List.any_cons, hp] using ha
      simp [hp, ih ha2]

/-- Looking up a key appended to an association list that did not hold
it finds the appended value. -/
lemma find_in_appended {β : Type} (k : String) (v : β) :
    ∀ ps : List (String × β), ps.any (fun p => p.1 = k) = false →
      List.find? (fun p => p.1 = k) (ps ++ [(k, v)]) = some (k, v) := by
  intro ps
  induction ps with
  | nil => simp
  | cons p rest ih =>
    intro ha
    have hp : ¬ p.1 = k := by
      intro hh
      simp [List.any_cons, hh] at ha
    have ha2 : rest.any (fun q => q.1 = k) = false := by
      simpa [List.any_cons, hp] using ha
    simp [hp, ih ha2]

/-- Dictionary update followed by lookup at the same key returns the
stored value. -/
lemma getAssoc_setAssoc {β : Type} (l : List (String × β)) (k : String) (v : β) :
    getAssoc (setAssoc l k v) k = some v := by
  rw [setAssoc, getAssoc]
  by_cases ha : l.any (fun p => p.1 = k)
  · rw [if_pos ha, find_in_mapped k v l ha]
    rfl
  · rw [if_neg ha, find_in_appended k v l (Bool.not_eq_true _ ▸ Bool.of_not_eq_true ha)]
    rfl

/-- C4: a pool already holding `max_connections` connections rejects the
next `add_connection` — no connection id is returned, the rejected
counter is incremented, and the connection and load dictionaries are
untouched — while an admission below the limit succeeds and records the
connection in state CONNECTED with load 0. -/
theorem add_connection_spec (pool : ConnectionPool) (cid : String)
    (ip ua : Option String) (now : ℚ) :
    (pool.max_connections ≤ pool.connections.length →
      add_connection pool cid ip ua now =
        (none, { pool with rejected_connections := pool.rejected_connections + 1 })) ∧
    (pool.connections.length < pool.max_connections →
      (add_connection pool cid ip ua now).1 = some cid ∧
      getAssoc (add_connection pool cid ip ua now).2.connections cid =
        some ⟨cid, .CONNECTED, now, now, 0, 0, 0, ip, ua⟩ ∧
      getAssoc (add_connection pool cid ip ua now).2.connection_loads cid = some 0) := by
  constructor
  · intro h
    rw [add_connection, if_pos h]
  · intro h
    rw [add_connection, if_neg (not_le.mpr h)]
    exact ⟨rfl, getAssoc_setAssoc _ _ _, getAssoc_setAssoc _ _ _⟩

/-- C4 witness: a pool of capacity 1 holding one open connection rejects
the next admission untouched except for the rejected counter, and an
empty pool of capacity 2 admits. -/
theorem add_connection_spec_witness :
    add_connection ⟨1, 10, [("c1", ⟨"c1", .CONNECTED, 0, 0, 0, 0, 0, none, none⟩)],
        [("c1", 0)], 1, 1, 0⟩ "c2" none none 0 =
      (none, ⟨1, 10, [("c1", ⟨"c1", .CONNECTED, 0, 0, 0, 0, 0, none, none⟩)],
        [("c1", 0)], 1, 1, 1⟩) ∧
    (add_connection ⟨2, 10, [], [], 0, 0, 0⟩ "c1" none none 0).1 = some "c1" :=
  ⟨(add_connection_spec ⟨1, 10, [("c1", ⟨"c1", .CONNECTED, 0, 0, 0, 0, 0, none, none⟩)],
      [("c1", 0)], 1, 1, 0⟩ "c2" none none 0).1 (by decide),
   ((add_connection_spec ⟨2, 10, [], [], 0, 0, 0⟩ "c1" none none 0).2 (by decide)).1⟩

/-- C7: with `requests_per_second = 10` and `burst_size = 20`, on a
fresh bucket 20 checks at one instant all succeed, the 21st at that
instant fails, and a further check one second later succeeds. -/
theorem rate_limiter_burst_20 :
    run_allowed ⟨10, 20⟩ (freshBucket ⟨10, 20⟩ 0)
      (List.replicate 21 0 ++ [1]) = List.replicate 20 true ++ [false, true] := by
  norm_num [run_allowed, is_allowed, freshBucket, min_def, List.replicate]

/-- Replacing one level's deque by itself plus appended items grows the
summed sizes by the number of appended items. -/
lemma sum_map_length_set {α : Type} (qs : List (List α)) (p : Nat) (xs : List α)
    (hp : p < qs.length) :
    ((qs.set p (qs.getD p [] ++ xs)).map List.length).sum =
      (qs.map List.length).sum + xs.length := by
  induction qs generalizing p with
  | nil => simp at hp
  | cons q rest ih =>
    cases p with
    | zero =>
      simp only [List.getD_cons_zero, List.set_cons_zero, List.map_cons,
        List.sum_cons, List.length_append]
      omega
    | succ n =>
      have hn : n < rest.length := by simpa using hp
      simp only [List.getD_cons_succ, List.set_cons_succ, List.map_cons,
        List.sum_cons, ih n hn]
      omega

/-- C10: `put` with a priority ordinal that is negative or at least
`priority_levels` neither rejects the item nor raises: when the queue is
below `max_size` the item is appended to the lowest priority level
(ordinal `priority_levels - 1`), the other levels are untouched and the
total size grows by one. -/
theorem put_out_of_range_clamps {α : Type} (q : PriorityQueue α) (item : α)
    (priority : ℤ)
    (hlev : 1 ≤ q.priority_levels)
    (hwf : q.queues.length = q.priority_levels)
    (hroom : q.total_size < q.max_size)
    (hout : priority < 0 ∨ (q.priority_levels : ℤ) ≤ priority) :
    (q.put item priority).1 = true ∧
    (q.put item priority).2.queues.getD (q.priority_levels - 1) [] =
      q.queues.getD (q.priority_levels - 1) [] ++ [item] ∧
    (∀ i, i < q.priority_levels → i ≠ q.priority_levels - 1 →
      (q.put item priority).2.queues.getD i [] = q.queues.getD i []) ∧
    (q.put item priority).2.total_size = q.total_size + 1 := by
  have hplt : q.priority_levels - 1 < q.queues.length := by omega
  rw [PriorityQueue.put, if_neg (not_le.mpr hroom), if_pos hout]
  refine ⟨rfl, ?_, ?_, ?_⟩
  · simp only [List.getD_eq_getElem?_getD]
    rw [List.getElem?_set_eq_of_lt _ hplt]
    rfl
  · intro i hi hne
    simp only [List.getD_eq_getElem?_getD]
    rw [List.getElem?_set_ne (fun hh => hne hh.symm)]
  · exact sum_map_length_set q.queues _ [item] hplt

/-- C10 witness: a three-level queue with room accepts priority 7 into
level 2 and grows by one. -/
theorem put_out_of_range_clamps_witness :
    ((⟨10, 3, [[], [], []]⟩ : PriorityQueue Nat).put 5 7).1 = true ∧
    ((⟨10, 3, [[], [], []]⟩ : PriorityQueue Nat).put 5 7).2.queues.getD 2 [] = [5] ∧
    ((⟨10, 3, [[], [], []]⟩ : PriorityQueue Nat).put 5 7).2.total_size = 1 :=
  ⟨(put_out_of_range_clamps ⟨10, 3, [[], [], []]⟩ 5 7 (by decide) (by decide)
      (by decide) (by decide)).1,
   (put_out_of_range_clamps ⟨10, 3, [[], [], []]⟩ 5 7 (by decide) (by decide)
      (by decide) (by decide)).2.1,
   (put_out_of_range_clamps ⟨10, 3, [[], [], []]⟩ 5 7 (by decide) (by decide)
      (by decide) (by decide)).2.2.2⟩

end Conn

namespace Tasks

/-- C5: while the total pending count is at least `max_pending_tasks`
and nothing drains, `submit` raises `QueueFull` (modelled by `none`) and
leaves every pending queue unchanged; below the limit it succeeds and
appends exactly one item, to the submitted priority's queue. -/
theorem submit_spec (p : AsyncTaskPool) (task_id : Option String)
    (priority : TaskPriority) (now : ℚ) :
    (p.max_pending_tasks ≤ p.total_pending →
      (submit p task_id priority now).1 = none ∧
      ∀ q, (submit p task_id priority now).2.pendingAt q = p.pendingAt q) ∧
    (p.total_pending < p.max_pending_tasks →
      ∃ t, (submit p task_id priority now).1 = some t ∧
        (submit p task_id priority now).2.pendingAt priority =
          p.pendingAt priority ++ [⟨t, priority, now⟩] ∧
        (∀ q, q ≠ priority →
          (submit p task_id priority now).2.pendingAt q = p.pendingAt q) ∧
        (submit p task_id priority now).2.total_pending = p.total_pending + 1) := by
  cases task_id with
  | none =>
    constructor
    · intro h
      rw [submit.eq_def]
      dsimp only
      rw [if_pos h]
      exact ⟨rfl, fun q => by cases q <;> rfl⟩
    · intro h
      rw [submit.eq_def]
      dsimp only
      rw [if_neg (not_le.mpr h)]
      refine ⟨_, rfl, ?_, ?_, ?_⟩
      · cases priority <;> rfl
      · intro q hq
        cases priority <;> cases q <;> first | rfl | exact absurd rfl hq
      · cases priority <;>
          simp [AsyncTaskPool.total_pending, AsyncTaskPool.enqueue,
            AsyncTaskPool.pendingAt] <;> omega
  | some t0 =>
    constructor
    · intro h
      rw [submit.eq_def]
      dsimp only
      rw [if_pos h]
      exact ⟨rfl, fun q => by cases q <;> rfl⟩
    · intro h
      rw [submit.eq_def]
      dsimp only
      rw [if_neg (not_le.mpr h)]
      refine ⟨_, rfl, ?_, ?_, ?_⟩
      · cases priority <;> rfl
      · intro q hq
        cases priority <;> cases q <;> first | rfl | exact absurd rfl hq
      · cases priority <;>
          simp [AsyncTaskPool.total_pending, AsyncTaskPool.enqueue,
            AsyncTaskPool.pendingAt] <;> omega

/-- C5 witness: a pool at its pending cap of 1 rejects a submission,
and a pool below a cap of 2 accepts one and grows to 2 pending. -/
theorem submit_spec_witness :
    (submit ⟨100, 1, [⟨"task-1", .NORMAL, 0⟩], [], [], [], 1, 1⟩ none .NORMAL 0).1 =
      none ∧
    (submit ⟨100, 2, [⟨"task-1", .NORMAL, 0⟩], [], [], [], 1, 1⟩
      none .HIGH 0).2.total_pending = 2 := by
  constructor
  · exact ((submit_spec ⟨100, 1, [⟨"task-1", .NORMAL, 0⟩], [], [], [], 1, 1⟩
      none .NORMAL 0).1 (by decide)).1
  · obtain ⟨t, -, -, -, h4⟩ := (submit_spec ⟨100, 2, [⟨"task-1", .NORMAL, 0⟩],
      [], [], [], 1, 1⟩ none .HIGH 0).2 (by decide)
    exact h4

end Tasks

namespace Batch

/-- Adding a concatenation of message lists composes the two runs and
concatenates their emitted envelopes. -/
lemma add_all_append {Msg : Type} (cfg : MessageBatcher) (msize : Msg → Nat)
    (now : ℚ) (st : BatchState Msg) (xs ys : List Msg) :
    add_all cfg msize now st (xs ++ ys) =
      ((add_all cfg msize now (add_all cfg msize now st xs).1 ys).1,
        (add_all cfg msize now st xs).2 ++
          (add_all cfg msize now (add_all cfg msize now st xs).1 ys).2) := by
  induction xs generalizing st with
  | nil => simp [add_all]
  | cons m ms ih =>
    simp only [List.cons_append, add_all, List.append_eq]
    rw [ih]
    simp [List.append_assoc]

/-- While neither the count limit nor the byte limit is reached, adds
accumulate without any flush. -/
lemma add_all_no_flush {Msg : Type} (cfg : MessageBatcher) (msize : Msg → Nat)
    (now : ℚ) :
    ∀ (msgs : List Msg) (st : BatchState Msg),
      st.batch_queue.length + msgs.length ≤ cfg.max_batch_size →
      st.batch_size_bytes + (msgs.map msize).sum ≤ cfg.max_batch_bytes →
      add_all cfg msize now st msgs =
        (⟨st.batch_queue ++ msgs, st.batch_size_bytes + (msgs.map msize).sum⟩, []) := by
  intro msgs
  induction msgs with
  | nil =>
    intro st h1 h2
    simp [add_all]
  | cons m ms ih =>
    intro st h1 h2
    have hcount : ¬ cfg.max_batch_size ≤ st.batch_queue.length := by
      simp only [List.length_cons] at h1
      omega
    have hbytes : ¬ cfg.max_batch_bytes < st.batch_size_bytes + msize m := by
      simp only [List.map_cons, List.sum_cons] at h2
      omega
    rw [add_all, add_message, if_neg (not_or.mpr ⟨hcount, hbytes⟩)]
    dsimp only
    rw [ih ⟨st.batch_queue ++ [m], st.batch_size_bytes + msize m⟩
      (by simp only [List.length_append, List.length_cons] at h1 ⊢; simp; omega)
      (by simp only [List.map_cons, List.sum_cons] at h2 ⊢; omega)]
    simp [List.append_assoc, BatchState.mk.injEq]
    omega

/-- C8: with `max_batch_size = 10`, adding 11 messages in sequence with
no timer firing — the first ten summing to at most `max_batch_bytes` so
the byte trigger stays quiet — produces exactly one automatic flush,
whose single envelope holds exactly the first 10 messages in order, and
leaves exactly 1 message pending. -/
theorem batcher_flush_on_eleventh {Msg : Type} (maxB : Nat) (msize : Msg → Nat)
    (now : ℚ) (first10 : List Msg) (m11 : Msg)
    (h10 : first10.length = 10)
    (hbytes : (first10.map msize).sum ≤ maxB) :
    add_all ⟨10, maxB⟩ msize now BatchState.empty (first10 ++ [m11]) =
      (⟨[m11], msize m11⟩, [⟨first10, 10, now⟩]) := by
  rw [add_all_append]
  rw [add_all_no_flush _ _ _ first10 BatchState.empty
    (by simp [BatchState.empty, h10]) (by simp [BatchState.empty, hbytes])]
  have hne : first10.isEmpty = false := by
    cases first10 with
    | nil => simp at h10
    | cons a l => rfl
  rw [add_all, add_message, if_pos (Or.inl (by simp [BatchState.empty]; omega))]
  dsimp only
  rw [flush_batch]
  simp [hne, add_all, h10, BatchState.empty]

/-- C8 witness: eleven unit-size messages against the default byte cap
flush the first ten as one envelope and leave the eleventh pending. -/
theorem batcher_flush_on_eleventh_witness :
    add_all ⟨10, 8192⟩ (fun _ => 1) 0 BatchState.empty
      ([0, 1, 2, 3, 4, 5, 6, 7, 8, 9] ++ [10]) =
      (⟨[10], 1⟩, [⟨[0, 1, 2, 3, 4, 5, 6, 7, 8, 9], 10, 0⟩]) :=
  batcher_flush_on_eleventh 8192 (fun _ => 1) 0 [0, 1, 2, 3, 4, 5, 6, 7, 8, 9] 10
    (by decide) (by decide)

end Batch

end Whisper
